import Mathlib

/-!
Verification of the git-repository-file resource of the
`terraform-provider-azuredevops` repository
(`azuredevops/internal/service/git/resource_git_repository_file.go`).

The Go source is shallowly embedded: every remote call made through the
Azure DevOps client (`GetBranch`, `GetItem`, `GetCommits`, `GetCommit`,
`CreatePush`) is modelled by passing the remote response in explicitly as
an argument (an environment record), and each lifecycle function is a pure
Lean function of the resource state and that environment.  Go panics
(index-out-of-range, nil-pointer dereference) are modelled by an explicit
`panicked` outcome.  Machine-level details that the source never branches
on (HTTP plumbing, context, pointers that are always non-nil by
construction) are elided; everything the source branches on is kept.
-/

/-- Embedding of a Go `error` value as produced by the Azure DevOps SDK.
`msg` is the error message (what `%+v` / `Error()` prints); `notFound`
records whether `utils.ResponseWasNotFound` holds of it (the SDK reports
an HTTP 404 wrapped error). -/
structure GoError where
  msg : String
  notFound : Bool
deriving DecidableEq, Repr

/-- Embedding of `utils.ResponseWasNotFound`. -/
def responseWasNotFound (e : GoError) : Bool := e.notFound

/-- Decides whether the character list `needle` occurs at the head of the
second list (used to embed Go substring search). -/
def charsHeadMatch : List Char → List Char → Bool
  | [], _ => true
  | _ :: _, [] => false
  | a :: as, b :: bs => a == b && charsHeadMatch as bs

/-- Decides whether `needle` occurs as a contiguous run anywhere in the
second list (used to embed Go substring search). -/
def charsContain (needle : List Char) : List Char → Bool
  | [] => needle.isEmpty
  | c :: t => charsHeadMatch needle (c :: t) || charsContain needle t

/-- Embedding of `utils.ResponseContainsStatusMessage err s`: the error
message contains `s` as a substring. -/
def responseContainsStatusMessage (e : GoError) (s : String) : Bool :=
  charsContain s.data e.msg.data

/-- The status-message fragment that `waitForFilePush` treats as a
recoverable concurrent-update (stale precondition) conflict. -/
def alreadyUpdatedByAnotherClient : String :=
  "has already been updated by another client"

/-- Embedding of Go `strings.Split` with a one-character separator,
working on the character list.  Go semantics: splitting the empty string
yields `[""]`, and `n` separators yield `n+1` fields. -/
def goSplitChar (sep : Char) : List Char → List (List Char)
  | [] => [[]]
  | x :: xs =>
    let r := goSplitChar sep xs
    if x == sep then [] :: r
    else
      match r with
      | [] => [[x]]
      | h :: t => (x :: h) :: t

/-- Embedding of Go `strings.Split s sep` for a one-character separator
(the source only splits on ":" and "/"). -/
def goSplit (s : String) (sep : Char) : List String :=
  (goSplitChar sep s.data).map String.mk

/-- Embedding of Go `strings.Join`. -/
def goJoin (sep : String) : List String → String
  | [] => ""
  | [x] => x
  | x :: y :: xs => x ++ sep ++ goJoin sep (y :: xs)

/-- Embedding of `git.ItemContent` (fields `Content`, `ContentType`). -/
structure ItemContent where
  content : String
  contentType : String
deriving DecidableEq, Repr

/-- Wire value of `git.ItemContentTypeValues.RawText` in the
`azure-devops-go-api` SDK. -/
def ItemContentTypeValues.RawText : String := "rawText"

/-- Wire value of `git.VersionControlChangeTypeValues.Add` in the
`azure-devops-go-api` SDK (the REST enum values are lowercase). -/
def VersionControlChangeTypeValues.Add : String := "add"

/-- Wire value of `git.VersionControlChangeTypeValues.Edit`. -/
def VersionControlChangeTypeValues.Edit : String := "edit"

/-- Wire value of `git.VersionControlChangeTypeValues.Delete`. -/
def VersionControlChangeTypeValues.Delete : String := "delete"

/-- Embedding of `git.GitChange`: one change record of a push (change
type, item path, optional new content; `NewContent` is set only when the
caller supplied content). -/
structure GitChange where
  changeType : String
  path : String
  newContent : Option ItemContent
deriving DecidableEq, Repr

/-- Embedding of `git.GitRefUpdate` (branch name and the expected old
object id, the compare-and-swap precondition). -/
structure GitRefUpdate where
  name : String
  oldObjectId : String
deriving DecidableEq, Repr

/-- Embedding of `git.GitCommitRef`.  `comment` and `commitId` are Go
string pointers, hence `Option`. -/
structure GitCommitRef where
  comment : Option String
  changes : List GitChange
  commitId : Option String
deriving DecidableEq, Repr

/-- Embedding of `git.GitPush` as used in `CreatePushArgs` (ref updates
plus commit list); the `pushId` field is the one read from the response. -/
structure GitPushBody where
  refUpdates : List GitRefUpdate
  commits : List GitCommitRef
deriving DecidableEq, Repr

/-- Embedding of `git.CreatePushArgs`. -/
structure CreatePushArgs where
  repositoryId : String
  push : GitPushBody
deriving DecidableEq, Repr

/-- Embedding of the `CreatePush` response: `PushId` is an int pointer. -/
structure GitPush where
  pushId : Option Int
deriving DecidableEq, Repr

/-- Embedding of `git.GitItem` as consumed by this resource (`Content`
and `CommitId` are string pointers). -/
structure GitItem where
  content : Option String
  commitId : Option String
deriving DecidableEq, Repr

/-- Embedding of the `GetCommit` response (only `Comment` is consumed). -/
structure GitCommit where
  comment : Option String
deriving DecidableEq, Repr

/-- Embedding of the Terraform `schema.ResourceData` state for this
resource.  Fields mirror the schema; optional string fields hold the
stored value, with Go/Terraform zero value `""` meaning unset (which is
what `GetOk` tests). -/
structure ResourceData where
  id : String
  repository_id : String
  file : String
  content : String
  branch : String
  comment : String
  overwrite_on_create : Bool
deriving DecidableEq, Repr

/-- Embedding of `d.GetOk("comment")`: returns the value exactly when it
is set to a non-zero (non-empty) string. -/
def getOkComment (d : ResourceData) : Option String :=
  if d.comment = "" then none else some d.comment

/-- Outcome of a Go call that can return a value, return an error, or
panic (the source dereferences pointers and indexes slices without
guards, so a panic outcome is reachable). -/
inductive GoOutcome (α : Type)
  | ok (a : α)
  | err (e : GoError)
  | panicked (reason : String)
deriving DecidableEq, Repr

/-- Embedding of `splitRepoFilePath`: split on "/" and rejoin everything
after the first component, so the file part is everything after the first
slash. -/
def splitRepoFilePath (path : String) : String × String :=
  let parts := goSplit path '/'
  (parts.headD "", goJoin "/" parts.tail)

/-- Embedding of `checkRepositoryFileExists`, as a function of the
`GetItem` response it makes: any error of the item fetch, a not-found
response included, is returned as-is; success returns no error. -/
def checkRepositoryFileExists (res : Except GoError GitItem) : Option GoError :=
  match res with
  | .error e => some e
  | .ok _ => none

/-- Embedding of `getLastCommitId`, as a function of the `GetCommits`
response: an error is propagated; on success the first element of the
commit list is indexed and its `CommitId` pointer dereferenced with no
emptiness or nil check, so an empty list or a nil id panics. -/
def getLastCommitId (res : Except GoError (List GitCommitRef)) : GoOutcome String :=
  match res with
  | .error e => .err e
  | .ok [] => .panicked "index out of range"
  | .ok (c :: _) =>
    match c.commitId with
    | none => .panicked "nil pointer dereference"
    | some cid => .ok cid

/-- Embedding of `resourceGitRepositoryPushArgs`: build the push
description from the resource state.  The commit comment is the declared
`comment` when `GetOk` reports it set, else nil; exactly one ref update
(branch, expected old object id) and exactly one commit holding exactly
one change.  The Go function's error result is the constant nil, so the
embedding returns the args directly. -/
def resourceGitRepositoryPushArgs (d : ResourceData) (objectID : String)
    (changeType : String) (newContent : Option ItemContent) : CreatePushArgs :=
  let message := getOkComment d
  let change : GitChange :=
    { changeType := changeType, path := d.file, newContent := newContent }
  { repositoryId := d.repository_id
    push :=
      { refUpdates := [{ name := d.branch, oldObjectId := objectID }]
        commits := [{ comment := message, changes := [change], commitId := none }] } }

/-- Embedding of the default-comment fill in `waitForFilePush`: when the
first commit's comment is nil it is set to `"<changeType> <file>"`
(the `%s %s` format of the change-type wire string and the file path). -/
def fillDefaultComment (args : CreatePushArgs) (changeType file : String) : CreatePushArgs :=
  match args.push.commits with
  | [] => args
  | c :: cs =>
    if c.comment = none then
      { args with
        push :=
          { args.push with
            commits := { c with comment := some (changeType ++ " " ++ file) } :: cs } }
    else args

/-- The comment of the first commit of a push description. -/
def firstCommitComment (a : CreatePushArgs) : Option String :=
  match a.push.commits with
  | [] => none
  | c :: _ => c.comment

deriving instance DecidableEq for Except

/-- Remote responses observed by one attempt (one `Refresh` invocation)
of the reconciler loop: the `GetCommits` response used by
`getLastCommitId`, and the `CreatePush` response. -/
structure RemoteAttempt where
  getCommits : Except GoError (List GitCommitRef)
  createPush : Except GoError GitPush
deriving DecidableEq, Repr

/-- Result of one invocation of the `Refresh` closure inside
`waitForFilePush`: either a panic, or a returned (state, error) pair;
`submitted` lists the push descriptions actually sent to `CreatePush`
during the invocation (empty when the call was never reached). -/
structure RefreshOut where
  panicMsg : Option String
  state : String
  error : Option GoError
  submitted : List CreatePushArgs
deriving DecidableEq, Repr

/-- Embedding of the `Refresh` closure of `waitForFilePush`: fetch the
branch tip (any failure is returned as the refresh error), build the push
args, default-fill the commit comment, submit the push; a `CreatePush`
failure whose message contains the concurrent-update fragment yields no
error and the `Waiting` state (retry), any other failure is returned as
the refresh error; on success the response's `PushId` pointer is
dereferenced and a positive id moves the state to `Synched`. -/
def refreshStep (d : ResourceData) (file changeType : String)
    (newContent : Option ItemContent) (att : RemoteAttempt) : RefreshOut :=
  match getLastCommitId att.getCommits with
  | .panicked r => ⟨some r, "Waiting", none, []⟩
  | .err e => ⟨none, "Waiting", some e, []⟩
  | .ok objectID =>
    let args := resourceGitRepositoryPushArgs d objectID changeType newContent
    let args := fillDefaultComment args changeType file
    match att.createPush with
    | .error e =>
      if responseContainsStatusMessage e alreadyUpdatedByAnotherClient then
        ⟨none, "Waiting", none, [args]⟩
      else
        ⟨none, "Waiting", some e, [args]⟩
    | .ok push =>
      match push.pushId with
      | none => ⟨some "nil pointer dereference", "Waiting", none, [args]⟩
      | some pid =>
        ⟨none, if pid > 0 then "Synched" else "Waiting", none, [args]⟩

/-- Embedding of the error wrapping at the bottom of `waitForFilePush`:
any error out of `WaitForState` is wrapped with the repository name. -/
def wrapRepoErr (repo : String) (e : GoError) : GoError :=
  { msg := "Error retrieving expected branch for repository [" ++ repo ++ "]: " ++ e.msg
    notFound := false }

/-- Result of `waitForFilePush`: success (`Synched` reached), a wrapped
terminal error, the overall timeout elapsing (also surfaced as a wrapped
error by the source; the message is elided here), or a panic. -/
inductive WaitResult
  | synched
  | failed (e : GoError)
  | timeout
  | panicked (reason : String)
deriving DecidableEq, Repr

/-- Embedding of `waitForFilePush` / `StateChangeConf.WaitForState`: the
`Refresh` closure runs repeatedly, each invocation consuming the next
`RemoteAttempt`; a refresh error aborts the loop with the error wrapped
with the repository name; the `Synched` state terminates with success
(`ContinuousTargetOccurence` is 1, one observation suffices); the
`Waiting` state continues; exhausting the attempt list models the
600-second overall timeout elapsing.  Alongside the result, the list of
all push descriptions submitted to `CreatePush` is returned. -/
def waitForFilePush (d : ResourceData) (repo _branch file changeType : String)
    (newContent : Option ItemContent) :
    List RemoteAttempt → WaitResult × List CreatePushArgs
  | [] => (.timeout, [])
  | att :: rest =>
    let r := refreshStep d file changeType newContent att
    match r.panicMsg with
    | some reason => (.panicked reason, r.submitted)
    | none =>
      match r.error with
      | some e => (.failed (wrapRepoErr repo e), r.submitted)
      | none =>
        if r.state = "Synched" then (.synched, r.submitted)
        else
          let rec' := waitForFilePush d repo _branch file changeType newContent rest
          (rec'.1, r.submitted ++ rec'.2)

/-- A `GetItem` response as a (item pointer, error) pair, mirroring the
Go multi-value return: both components can independently be nil. -/
structure GetItemResult where
  item : Option GitItem
  error : Option GoError
deriving DecidableEq, Repr

/-- Remote responses consumed by one read: the `GetBranch` outcome of
`checkRepositoryBranchExists` (an error, or none on success), the
`GetItem` response, and the `GetCommit` response. -/
structure ReadEnv where
  branchCheck : Option GoError
  getItem : GetItemResult
  getCommit : Except GoError GitCommit
deriving DecidableEq, Repr

/-- Outcome of a lifecycle operation, carrying the resulting resource
state: success, a returned error, the reconciler timeout elapsing, or a
panic. -/
inductive OpResult
  | ok (d : ResourceData)
  | err (d : ResourceData) (e : GoError)
  | timeout (d : ResourceData)
  | panicked (d : ResourceData) (reason : String)
deriving DecidableEq, Repr

/-- Embedding of `resourceGitRepositoryFileRead`: recover repository and
file from the id, re-check the branch; the inner retry closure only ever
returns success or a non-retryable error, so it runs once: a not-found
item fetch clears the resource id and still returns the error, any other
item-fetch error is returned as-is; otherwise content, repository and
file are stored, the originating commit is fetched and its comment
stored (a nil response pointer stores the Go zero value). -/
def resourceGitRepositoryFileRead (d : ResourceData) (env : ReadEnv) : OpResult :=
  let rf := splitRepoFilePath d.id
  match env.branchCheck with
  | some e => .err d e
  | none =>
    match env.getItem.error with
    | some e =>
      if e.notFound then .err { d with id := "" } e
      else .err d e
    | none =>
      match env.getItem.item with
      | none => .panicked d "nil pointer dereference"
      | some item =>
        let d := { d with
                    content := item.content.getD ""
                    repository_id := rf.1
                    file := rf.2 }
        match env.getCommit with
        | .error e => .err d e
        | .ok commit => .ok { d with comment := commit.comment.getD "" }

/-- Remote responses consumed by one create: the branch check, the
unversioned `GetItem` existence probe, the reconciler's per-attempt
responses, and the responses of the final delegated read. -/
structure CreateEnv where
  branchCheck : Option GoError
  getItemProbe : GetItemResult
  attempts : List RemoteAttempt
  readEnv : ReadEnv
deriving DecidableEq, Repr

/-- The error message returned by create when the file exists and
overwriting is not allowed. -/
def refusalErrMsg : String :=
  "Refusing to overwrite existing file. Configure `overwrite_on_create` to `true` to override."

/-- Embedding of `resourceGitRepositoryFileCreate`: check the branch;
probe the item (an error other than not-found is returned); when an item
came back, refuse unless `overwrite_on_create` and otherwise push with
Edit kind, else push with Add kind; run the reconciler with the declared
content as raw text; on success set the id to `repo ++ "/" ++ file` and
delegate to read.  The second component lists every push submitted. -/
def resourceGitRepositoryFileCreate (d : ResourceData) (env : CreateEnv) :
    OpResult × List CreatePushArgs :=
  let repo := d.repository_id
  let file := d.file
  match env.branchCheck with
  | some e => (.err d e, [])
  | none =>
    let gate : Option GoError :=
      match env.getItemProbe.error with
      | some e => if responseWasNotFound e then none else some e
      | none => none
    match gate with
    | some e => (.err d e, [])
    | none =>
      let proceed : String → OpResult × List CreatePushArgs := fun changeType =>
        let newContent : ItemContent :=
          { content := d.content, contentType := ItemContentTypeValues.RawText }
        let w := waitForFilePush d repo d.branch file changeType (some newContent) env.attempts
        match w.1 with
        | .failed e => (.err d e, w.2)
        | .timeout => (.timeout d, w.2)
        | .panicked r => (.panicked d r, w.2)
        | .synched =>
          let d := { d with id := repo ++ "/" ++ file }
          (resourceGitRepositoryFileRead d env.readEnv, w.2)
      match env.getItemProbe.item with
      | some _ =>
        if !d.overwrite_on_create then
          (.err d { msg := refusalErrMsg, notFound := false }, [])
        else proceed VersionControlChangeTypeValues.Edit
      | none => proceed VersionControlChangeTypeValues.Add

/-- Remote responses consumed by one update: the branch check, the
`GetCommits` response feeding `getLastCommitId`, the single direct
`CreatePush` response, and the responses of the delegated read. -/
structure UpdateEnv where
  branchCheck : Option GoError
  getCommits : Except GoError (List GitCommitRef)
  createPush : Except GoError GitPush
  readEnv : ReadEnv
deriving DecidableEq, Repr

/-- Embedding of `resourceGitRepositoryFileUpdate`: check the branch,
fetch the branch tip, build push args with Edit kind and the declared
content, then dereference the first commit's comment pointer with no nil
check (panicking when `comment` is unset), normalize an exact
`"Add <file>"` comment to `"Update <file>"`, submit the push once
directly, and on success delegate to read.  The second component lists
every push submitted. -/
def resourceGitRepositoryFileUpdate (d : ResourceData) (env : UpdateEnv) :
    OpResult × List CreatePushArgs :=
  let file := d.file
  match env.branchCheck with
  | some e => (.err d e, [])
  | none =>
    match getLastCommitId env.getCommits with
    | .panicked r => (.panicked d r, [])
    | .err e => (.err d e, [])
    | .ok objectID =>
      let newContent : ItemContent :=
        { content := d.content, contentType := ItemContentTypeValues.RawText }
      let args := resourceGitRepositoryPushArgs d objectID
        VersionControlChangeTypeValues.Edit (some newContent)
      match args.push.commits with
      | [] => (.panicked d "index out of range", [])
      | c :: cs =>
        match c.comment with
        | none => (.panicked d "nil pointer dereference", [])
        | some msg =>
          let args :=
            if msg = "Add " ++ file then
              { args with
                push :=
                  { args.push with
                    commits := { c with comment := some ("Update " ++ file) } :: cs } }
            else args
          match env.createPush with
          | .error e => (.err d e, [args])
          | .ok _ => (resourceGitRepositoryFileRead d env.readEnv, [args])

/-- Embedding of `resourceGitRepositoryFileDelete`: run the reconciler
with Delete kind and no content; any reconciler error is returned. -/
def resourceGitRepositoryFileDelete (d : ResourceData)
    (attempts : List RemoteAttempt) : OpResult × List CreatePushArgs :=
  let w := waitForFilePush d d.repository_id d.branch d.file
    VersionControlChangeTypeValues.Delete none attempts
  match w.1 with
  | .synched => (.ok d, w.2)
  | .failed e => (.err d e, w.2)
  | .timeout => (.timeout d, w.2)
  | .panicked r => (.panicked d r, w.2)

/-- The validation error message of the importer for a malformed id. -/
def importerInvalidIdMsg : String :=
  "Invalid ID specified. Supplied ID must be written as <repository>/<file path> (when branch is \"master\") or <repository>/<file path>:<branch>"

/-- Remote responses consumed by one import: the `GetItem` response of
the existence verification. -/
structure ImportEnv where
  fileCheck : Except GoError GitItem
deriving DecidableEq, Repr

/-- Embedding of the importer state function: split the supplied id on
":"; more than two segments is a validation error; with two segments the
second is the branch, else the branch defaults to `refs/heads/master`;
the first segment is split into repository and file, the file's existence
is verified (any error aborts), and the imported state gets id
`repo ++ "/" ++ file`, the branch, and `overwrite_on_create := false`. -/
def resourceGitRepositoryFileImporter (idIn : String) (d : ResourceData)
    (env : ImportEnv) : Except GoError ResourceData :=
  let parts := goSplit idIn ':'
  if parts.length > 2 then
    .error { msg := importerInvalidIdMsg, notFound := false }
  else
    let branch := if parts.length = 2 then parts.getD 1 "" else "refs/heads/master"
    let rf := splitRepoFilePath (parts.headD "")
    match checkRepositoryFileExists env.fileCheck with
    | some e => .error e
    | none =>
      .ok { d with
            id := rf.1 ++ "/" ++ rf.2
            branch := branch
            overwrite_on_create := false }

/-- The polling-policy constants of the `StateChangeConf` in
`waitForFilePush` and the operation timeouts of the resource schema, in
seconds. -/
structure PollingPolicy where
  timeoutSeconds : Nat
  minTimeoutSeconds : Nat
  delaySeconds : Nat
  continuousTargetOccurence : Nat
deriving DecidableEq, Repr

/-- The `StateChangeConf` constants of `waitForFilePush`:
`Timeout: 600 * time.Second`, `MinTimeout: 2 * time.Second`,
`Delay: 0 * time.Second`, `ContinuousTargetOccurence: 1`. -/
def waitForFilePushPolicy : PollingPolicy :=
  { timeoutSeconds := 600
    minTimeoutSeconds := 2
    delaySeconds := 0
    continuousTargetOccurence := 1 }

/-- The schema operation timeouts: `Create: 1 * time.Minute`,
`Read: 5 * time.Second`, in seconds. -/
structure ResourceTimeouts where
  createSeconds : Nat
  readSeconds : Nat
deriving DecidableEq, Repr

/-- The declared schema timeouts of the resource. -/
def resourceGitRepositoryFileTimeouts : ResourceTimeouts :=
  { createSeconds := 60, readSeconds := 5 }

/-- Concrete resource state used by witnesses: no declared comment. -/
def wD : ResourceData :=
  { id := "repo1/f.txt", repository_id := "repo1", file := "f.txt", content := "hello"
    branch := "refs/heads/master", comment := "", overwrite_on_create := false }

/-- Concrete resource state with a declared commit message. -/
def wDMsg : ResourceData := { wD with comment := "my message" }

/-- Concrete resource state with overwriting allowed. -/
def wDOverwrite : ResourceData := { wD with overwrite_on_create := true }

/-- A concrete stale-precondition conflict error. -/
def wConflictErr : GoError :=
  { msg := "TF401028: the ref has already been updated by another client"
    notFound := false }

/-- A concrete unrelated remote error. -/
def wBoomErr : GoError := { msg := "boom", notFound := false }

/-- A concrete not-found error. -/
def wNotFoundErr : GoError := { msg := "TF401174: item not found", notFound := true }

/-- A concrete branch-tip commit returned by `GetCommits`. -/
def wCommit0 : GitCommitRef := { comment := none, changes := [], commitId := some "c0" }

/-- A reconciler attempt whose push succeeds. -/
def wAttOk : RemoteAttempt :=
  { getCommits := .ok [wCommit0], createPush := .ok { pushId := some 7 } }

/-- A reconciler attempt whose push is rejected with the concurrent-update
conflict. -/
def wAttConflict : RemoteAttempt :=
  { getCommits := .ok [wCommit0], createPush := .error wConflictErr }

/-- A reconciler attempt whose push fails with an unrelated error. -/
def wAttBoom : RemoteAttempt :=
  { getCommits := .ok [wCommit0], createPush := .error wBoomErr }

/-- A reconciler attempt whose branch-tip fetch fails. -/
def wAttGetErr : RemoteAttempt :=
  { getCommits := .error wBoomErr, createPush := .ok { pushId := some 1 } }

/-- A read environment where every fetch succeeds. -/
def wReadEnv : ReadEnv :=
  { branchCheck := none
    getItem := { item := some { content := some "hello", commitId := some "c1" }, error := none }
    getCommit := .ok { comment := some "add f.txt" } }

/-- A read environment where the item fetch reports not-found. -/
def wReadEnvNotFound : ReadEnv :=
  { branchCheck := none
    getItem := { item := none, error := some wNotFoundErr }
    getCommit := .ok { comment := none } }

/-- An item returned by an existence probe. -/
def wItem : GitItem := { content := some "x", commitId := some "c9" }

/-- A create environment whose existence probe finds the file. -/
def wCreateEnvExisting : CreateEnv :=
  { branchCheck := none
    getItemProbe := { item := some wItem, error := none }
    attempts := [wAttOk]
    readEnv := wReadEnv }

/-- A create environment whose existence probe reports not-found. -/
def wCreateEnvFresh : CreateEnv :=
  { branchCheck := none
    getItemProbe := { item := none, error := some wNotFoundErr }
    attempts := [wAttOk]
    readEnv := wReadEnv }

/-- An update environment whose direct push hits the concurrent-update
conflict. -/
def wUpdateEnvConflict : UpdateEnv :=
  { branchCheck := none
    getCommits := .ok [wCommit0]
    createPush := .error wConflictErr
    readEnv := wReadEnv }

/-- An update environment whose direct push succeeds. -/
def wUpdateEnvOk : UpdateEnv :=
  { branchCheck := none
    getCommits := .ok [wCommit0]
    createPush := .ok { pushId := some 3 }
    readEnv := wReadEnv }

/-- The raw-text content record built for the declared content. -/
def wNewContent : ItemContent := { content := "hello", contentType := "rawText" }

/-- The Edit change record built for the witness state. -/
def wChangeEdit : GitChange :=
  { changeType := "edit", path := "f.txt", newContent := some wNewContent }

/-- The Add change record built for the witness state. -/
def wChangeAdd : GitChange :=
  { changeType := "add", path := "f.txt", newContent := some wNewContent }

/-- The commit of an Edit push with a defaulted comment. -/
def wCommitEdit : GitCommitRef :=
  { comment := some "edit f.txt", changes := [wChangeEdit], commitId := none }

/-- The commit of an Add push with a defaulted comment. -/
def wCommitAdd : GitCommitRef :=
  { comment := some "add f.txt", changes := [wChangeAdd], commitId := none }

/-- The commit of the update push with the declared comment. -/
def wCommitUpd : GitCommitRef :=
  { comment := some "my message", changes := [wChangeEdit], commitId := none }

/-- The compare-and-swap ref update for the witness branch tip. -/
def wRefUpdate : GitRefUpdate := { name := "refs/heads/master", oldObjectId := "c0" }

/-- The full Edit push submitted by the reconciler in the witness runs. -/
def wPushEdit : CreatePushArgs :=
  { repositoryId := "repo1", push := { refUpdates := [wRefUpdate], commits := [wCommitEdit] } }

/-- The full Add push submitted by the reconciler in the witness runs. -/
def wPushAdd : CreatePushArgs :=
  { repositoryId := "repo1", push := { refUpdates := [wRefUpdate], commits := [wCommitAdd] } }

/-- The full push submitted by the update operation in the witness runs. -/
def wPushUpd : CreatePushArgs :=
  { repositoryId := "repo1", push := { refUpdates := [wRefUpdate], commits := [wCommitUpd] } }

/-- Every push submitted during one refresh invocation is the push built
by `resourceGitRepositoryPushArgs` from some fetched tip commit id, with
the default comment filled in. -/
theorem refreshStep_submitted_shape (d : ResourceData) (file ct : String)
    (nc : Option ItemContent) (att : RemoteAttempt) :
    ∀ a ∈ (refreshStep d file ct nc att).submitted,
      ∃ oid, a = fillDefaultComment (resourceGitRepositoryPushArgs d oid ct nc) ct file := by
  intro a ha
  unfold refreshStep at ha
  cases hg : getLastCommitId att.getCommits with
  | panicked r => rw [hg] at ha; simp at ha
  | err e => rw [hg] at ha; simp at ha
  | ok oid =>
    rw [hg] at ha
    refine ⟨oid, ?_⟩
    cases hp : att.createPush with
    | error e =>
      rw [hp] at ha
      by_cases hc : responseContainsStatusMessage e alreadyUpdatedByAnotherClient
      · simp [hc] at ha; exact ha
      · simp [hc] at ha; exact ha
    | ok push =>
      rw [hp] at ha
      obtain ⟨pushId⟩ := push
      cases pushId with
      | none => simp at ha; exact ha
      | some pid => simp at ha; exact ha

/-- Every push submitted over a whole reconciler run has the shape built
by `resourceGitRepositoryPushArgs` plus the default-comment fill. -/
theorem waitForFilePush_submitted_shape (d : ResourceData) (repo branch file ct : String)
    (nc : Option ItemContent) (atts : List RemoteAttempt) :
    ∀ a ∈ (waitForFilePush d repo branch file ct nc atts).2,
      ∃ oid, a = fillDefaultComment (resourceGitRepositoryPushArgs d oid ct nc) ct file := by
  induction atts with
  | nil => intro a ha; simp [waitForFilePush] at ha
  | cons att rest ih =>
    intro a ha
    rw [waitForFilePush] at ha
    cases hp : (refreshStep d file ct nc att).panicMsg with
    | some r =>
      rw [hp] at ha
      exact refreshStep_submitted_shape d file ct nc att a ha
    | none =>
      rw [hp] at ha
      cases he : (refreshStep d file ct nc att).error with
      | some e =>
        rw [he] at ha
        exact refreshStep_submitted_shape d file ct nc att a ha
      | none =>
        rw [he] at ha
        by_cases hs : (refreshStep d file ct nc att).state = "Synched"
        · simp only [hs, if_pos] at ha
          exact refreshStep_submitted_shape d file ct nc att a ha
        · simp only [if_neg hs] at ha
          rcases List.mem_append.mp ha with h | h
          · exact refreshStep_submitted_shape d file ct nc att a h
          · exact ih a h

/-- Filling the default comment leaves the change records of every commit
of the push untouched. -/
theorem fillDefaultComment_changes (args : CreatePushArgs) (ct file : String) :
    (fillDefaultComment args ct file).push.commits.map (·.changes)
      = args.push.commits.map (·.changes) := by
  unfold fillDefaultComment
  cases h : args.push.commits with
  | nil => simp [h]
  | cons c cs =>
    by_cases hc : c.comment = none
    · simp [hc, h]
    · simp [hc, h]

/-- The comment of the one commit of a reconciler-built push resolves to
the declared message when one is set, else to the kind-specific default
`"<changeType> <file>"`. -/
theorem pushArgs_comment_resolution (d : ResourceData) (oid ct file : String)
    (nc : Option ItemContent) :
    firstCommitComment (fillDefaultComment (resourceGitRepositoryPushArgs d oid ct nc) ct file)
      = some ((getOkComment d).getD (ct ++ " " ++ file)) := by
  unfold resourceGitRepositoryPushArgs fillDefaultComment firstCommitComment
  cases h : getOkComment d with
  | none => simp [h]
  | some m => simp [h]

/-- A reconciler-built push holds exactly one commit with exactly one
change, carrying the requested change type, the declared path and the
supplied content. -/
theorem pushArgs_commits (d : ResourceData) (oid ct file : String) (nc : Option ItemContent) :
    ∃ cm, (fillDefaultComment (resourceGitRepositoryPushArgs d oid ct nc) ct file).push.commits
      = [{ comment := some cm
           changes := [{ changeType := ct, path := d.file, newContent := nc }]
           commitId := none }] := by
  unfold resourceGitRepositoryPushArgs fillDefaultComment
  cases h : getOkComment d with
  | none => exact ⟨ct ++ " " ++ file, by simp [h]⟩
  | some m => exact ⟨m, by simp [h]⟩

/-- C1: in the reconciler loop (`waitForFilePush`, used by create and
delete), a failure fetching the branch tip terminates the loop with the
error wrapped with the repository name; a `CreatePush` failure whose
message indicates the branch was concurrently updated by another client
keeps the loop in `Waiting` and retries from the branch-tip fetch with no
error reported upward; any other `CreatePush` failure terminates the loop
with the error wrapped with the repository name. -/
theorem waitForFilePush_conflict_retry_and_error_propagation
    (d : ResourceData) (repo branch file ct : String) (nc : Option ItemContent)
    (att : RemoteAttempt) (rest : List RemoteAttempt) :
    (∀ e, att.getCommits = Except.error e →
      waitForFilePush d repo branch file ct nc (att :: rest)
        = (WaitResult.failed (wrapRepoErr repo e), [])) ∧
    (∀ oid e, getLastCommitId att.getCommits = GoOutcome.ok oid →
      att.createPush = Except.error e →
      responseContainsStatusMessage e alreadyUpdatedByAnotherClient = true →
      (waitForFilePush d repo branch file ct nc (att :: rest)).1
        = (waitForFilePush d repo branch file ct nc rest).1) ∧
    (∀ oid e, getLastCommitId att.getCommits = GoOutcome.ok oid →
      att.createPush = Except.error e →
      responseContainsStatusMessage e alreadyUpdatedByAnotherClient = false →
      (waitForFilePush d repo branch file ct nc (att :: rest)).1
        = WaitResult.failed (wrapRepoErr repo e)) := by
  refine ⟨?_, ?_, ?_⟩
  · intro e he
    rw [waitForFilePush]
    simp [refreshStep, getLastCommitId, he]
  · intro oid e hg hp hc
    rw [waitForFilePush]
    simp [refreshStep, hg, hp, hc]
  · intro oid e hg hp hc
    rw [waitForFilePush]
    simp [refreshStep, hg, hp, hc]

/-- C2: create on an existing branch refuses with a descriptive error and
submits no push when the file exists and `overwrite_on_create` is false;
when the file exists and overwriting is allowed, every submitted push has
change kind Edit; when the existence probe reports not-found, every
submitted push has change kind Add. -/
theorem create_existing_file_policy (d : ResourceData) (env : CreateEnv) (it : GitItem) :
    (env.branchCheck = none → env.getItemProbe = ⟨some it, none⟩ →
      d.overwrite_on_create = false →
      resourceGitRepositoryFileCreate d env
        = (.err d { msg := refusalErrMsg, notFound := false }, [])) ∧
    (env.branchCheck = none → env.getItemProbe = ⟨some it, none⟩ →
      d.overwrite_on_create = true →
      ∀ a ∈ (resourceGitRepositoryFileCreate d env).2, ∀ c ∈ a.push.commits,
        ∀ ch ∈ c.changes, ch.changeType = VersionControlChangeTypeValues.Edit) ∧
    (∀ e, env.branchCheck = none → env.getItemProbe = ⟨none, some e⟩ → e.notFound = true →
      ∀ a ∈ (resourceGitRepositoryFileCreate d env).2, ∀ c ∈ a.push.commits,
        ∀ ch ∈ c.changes, ch.changeType = VersionControlChangeTypeValues.Add) := by
  refine ⟨?_, ?_, ?_⟩
  · intro hb hp ho
    unfold resourceGitRepositoryFileCreate
    simp [hb, hp, ho]
  · intro hb hp ho a ha c hc ch hch
    have hmem : a ∈ (waitForFilePush d d.repository_id d.branch d.file
        VersionControlChangeTypeValues.Edit
        (some { content := d.content, contentType := ItemContentTypeValues.RawText })
        env.attempts).2 := by
      unfold resourceGitRepositoryFileCreate at ha
      simp only [hb, hp, ho] at ha
      rcases hw : waitForFilePush d d.repository_id d.branch d.file
          VersionControlChangeTypeValues.Edit
          (some { content := d.content, contentType := ItemContentTypeValues.RawText })
          env.attempts with ⟨res, pushes⟩
      rw [hw] at ha
      cases res <;> simpa using ha
    obtain ⟨oid, rfl⟩ := waitForFilePush_submitted_shape d _ _ _ _ _ env.attempts a hmem
    obtain ⟨cm, hcm⟩ := pushArgs_commits d oid VersionControlChangeTypeValues.Edit d.file
      (some { content := d.content, contentType := ItemContentTypeValues.RawText })
    rw [hcm] at hc
    simp at hc
    subst hc
    simp at hch
    rw [hch]
  · intro e hb hp ho a ha c hc ch hch
    have hmem : a ∈ (waitForFilePush d d.repository_id d.branch d.file
        VersionControlChangeTypeValues.Add
        (some { content := d.content, contentType := ItemContentTypeValues.RawText })
        env.attempts).2 := by
      unfold resourceGitRepositoryFileCreate at ha
      simp only [hb, hp, ho, responseWasNotFound] at ha
      rcases hw : waitForFilePush d d.repository_id d.branch d.file
          VersionControlChangeTypeValues.Add
          (some { content := d.content, contentType := ItemContentTypeValues.RawText })
          env.attempts with ⟨res, pushes⟩
      rw [hw] at ha
      cases res <;> simpa using ha
    obtain ⟨oid, rfl⟩ := waitForFilePush_submitted_shape d _ _ _ _ _ env.attempts a hmem
    obtain ⟨cm, hcm⟩ := pushArgs_commits d oid VersionControlChangeTypeValues.Add d.file
      (some { content := d.content, contentType := ItemContentTypeValues.RawText })
    rw [hcm] at hc
    simp at hc
    subst hc
    simp at hch
    rw [hch]

/-- C3 (counterexample): with a declared commit message, when the single
direct `CreatePush` of the update operation is rejected with the
stale-precondition (concurrent update) conflict, the update returns that
error to the caller after exactly one push attempt — the conflict is not
silently retried and is visible to the caller, refuting the claim that
update runs the optimistic-retry reconciler. -/
theorem update_conflict_not_retried_counterexample :
    responseContainsStatusMessage wConflictErr alreadyUpdatedByAnotherClient = true ∧
    resourceGitRepositoryFileUpdate wDMsg wUpdateEnvConflict
      = (OpResult.err wDMsg wConflictErr, [wPushUpd]) := by decide

/-- C3 (amended): the update operation builds the push with Edit kind and
the new content and submits it exactly once, directly; any `CreatePush`
failure, the stale-precondition conflict included, is returned to the
caller with no retry. -/
theorem update_single_direct_push (d : ResourceData) (env : UpdateEnv) (oid m : String)
    (hb : env.branchCheck = none) (hg : getLastCommitId env.getCommits = GoOutcome.ok oid)
    (hm : getOkComment d = some m) :
    ((resourceGitRepositoryFileUpdate d env).2.length = 1 ∧
     ∀ a ∈ (resourceGitRepositoryFileUpdate d env).2, ∀ c ∈ a.push.commits,
       ∀ ch ∈ c.changes,
         ch.changeType = VersionControlChangeTypeValues.Edit ∧
         ch.newContent
           = some { content := d.content, contentType := ItemContentTypeValues.RawText }) ∧
    (∀ e, env.createPush = Except.error e →
      (resourceGitRepositoryFileUpdate d env).1 = OpResult.err d e) := by
  unfold resourceGitRepositoryFileUpdate resourceGitRepositoryPushArgs
  by_cases hadd : m = "Add " ++ d.file
  · cases hp : env.createPush with
    | error e =>
      refine ⟨⟨?_, ?_⟩, ?_⟩ <;> simp [hb, hg, hm, hadd, hp]
    | ok push =>
      refine ⟨⟨?_, ?_⟩, ?_⟩ <;> simp [hb, hg, hm, hadd, hp]
  · cases hp : env.createPush with
    | error e =>
      refine ⟨⟨?_, ?_⟩, ?_⟩ <;> simp [hb, hg, hm, hadd, hp]
    | ok push =>
      refine ⟨⟨?_, ?_⟩, ?_⟩ <;> simp [hb, hg, hm, hadd, hp]

/-- C4 (counterexample): with no declared commit message the push built
and submitted by the reconciler carries the default comment
`"edit f.txt"` for Edit kind and `"add f.txt"` for Add kind — not
`"Update f.txt"` and not `"Add f.txt"` as the claim states, because the
default is formatted from the lowercase change-type wire string. -/
theorem reconciler_default_comment_counterexample :
    ((waitForFilePush wD "repo1" "refs/heads/master" "f.txt"
        VersionControlChangeTypeValues.Edit (some wNewContent) [wAttOk]).2.map
        firstCommitComment = [some "edit f.txt"]) ∧
    (some "edit f.txt" ≠ some ("Update " ++ "f.txt")) ∧
    ((waitForFilePush wD "repo1" "refs/heads/master" "f.txt"
        VersionControlChangeTypeValues.Add (some wNewContent) [wAttOk]).2.map
        firstCommitComment = [some "add f.txt"]) ∧
    (some "add f.txt" ≠ some ("Add " ++ "f.txt")) := by decide

/-- C4 (amended): for every push built by the reconciler, a declared
(non-empty) commit message is used as-is; otherwise the comment is the
kind-specific default `"<changeType> <path>"` built from the change
type's wire string — `"add <path>"` for Add, `"edit <path>"` for Edit,
`"delete <path>"` for Delete. -/
theorem reconciler_commit_message_resolution (d : ResourceData)
    (repo branch file ct : String) (nc : Option ItemContent) (atts : List RemoteAttempt) :
    ∀ a ∈ (waitForFilePush d repo branch file ct nc atts).2,
      firstCommitComment a = some ((getOkComment d).getD (ct ++ " " ++ file)) := by
  intro a ha
  obtain ⟨oid, rfl⟩ := waitForFilePush_submitted_shape d repo branch file ct nc atts a ha
  exact pushArgs_comment_resolution d oid ct file nc

/-- C5: the importer splits the supplied id on ":"; more than two
segments is rejected with the validation error; with at most two segments
the branch is the second segment when present and `refs/heads/master`
otherwise, and (when the existence check passes) the seeded identity is
the first segment's repository part, a "/", and its file part, where the
first segment splits at its first "/" — e.g. "a/b/c" gives repository
"a" and path "b/c". -/
theorem importer_id_parsing (idIn : String) (d : ResourceData) (env : ImportEnv) :
    ((goSplit idIn ':').length > 2 →
      resourceGitRepositoryFileImporter idIn d env
        = .error { msg := importerInvalidIdMsg, notFound := false }) ∧
    ((goSplit idIn ':').length ≤ 2 → checkRepositoryFileExists env.fileCheck = none →
      resourceGitRepositoryFileImporter idIn d env
        = .ok { d with
                id := (splitRepoFilePath ((goSplit idIn ':').headD "")).1 ++ "/"
                        ++ (splitRepoFilePath ((goSplit idIn ':').headD "")).2
                branch := if (goSplit idIn ':').length = 2
                          then (goSplit idIn ':').getD 1 ""
                          else "refs/heads/master"
                overwrite_on_create := false }) ∧
    splitRepoFilePath "a/b/c" = ("a", "b/c") := by
  refine ⟨?_, ?_, by decide⟩
  · intro hlen
    unfold resourceGitRepositoryFileImporter
    simp [hlen]
  · intro hlen hchk
    unfold resourceGitRepositoryFileImporter
    simp [Nat.not_lt.mpr hlen, hchk]

/-- C6: the reconciler's polling policy is 600 time-units maximum total
wait, 2 time-units minimum interval, no initial delay, and exactly one
consecutive observation of `Synched` declares success — behaviourally, a
single refresh reaching `Synched` terminates the loop at once regardless
of remaining attempts; the read operation is bounded at 5 seconds. -/
theorem polling_policy_and_timeouts (d : ResourceData) (repo branch file ct : String)
    (nc : Option ItemContent) (att : RemoteAttempt) (rest : List RemoteAttempt) :
    (waitForFilePushPolicy.timeoutSeconds = 600 ∧
     waitForFilePushPolicy.minTimeoutSeconds = 2 ∧
     waitForFilePushPolicy.delaySeconds = 0 ∧
     waitForFilePushPolicy.continuousTargetOccurence = 1 ∧
     resourceGitRepositoryFileTimeouts.readSeconds = 5) ∧
    ((refreshStep d file ct nc att).panicMsg = none →
     (refreshStep d file ct nc att).error = none →
     (refreshStep d file ct nc att).state = "Synched" →
     waitForFilePush d repo branch file ct nc (att :: rest)
       = (WaitResult.synched, (refreshStep d file ct nc att).submitted)) := by
  refine ⟨by decide, ?_⟩
  intro hp he hs
  rw [waitForFilePush]
  simp [hp, he, hs]

/-- C7: during read, a not-found response from the item fetch clears the
resource's identity to the empty id and the not-found error is still
returned to the caller (every error return of the read closure is
non-retryable). -/
theorem read_not_found_clears_identity (d : ResourceData) (env : ReadEnv) (e : GoError)
    (hb : env.branchCheck = none) (he : env.getItem.error = some e)
    (hnf : e.notFound = true) :
    resourceGitRepositoryFileRead d env = OpResult.err { d with id := "" } e := by
  unfold resourceGitRepositoryFileRead
  simp [hb, he, hnf]

/-- C8 (counterexample): a not-found response during import's existence
verification IS surfaced as an error: `checkRepositoryFileExists` returns
the not-found error as-is and the importer aborts with it, refuting the
claim that the existence check used by the lifecycle operations never
surfaces not-found. -/
theorem import_not_found_surfaced_counterexample :
    wNotFoundErr.notFound = true ∧
    checkRepositoryFileExists (Except.error wNotFoundErr) = some wNotFoundErr ∧
    resourceGitRepositoryFileImporter "repo1/f.txt" wD
        { fileCheck := Except.error wNotFoundErr }
      = Except.error wNotFoundErr := by decide

/-- C8 (amended): create's inline existence probe treats a not-found item
fetch exactly like "file does not exist" with no error (the whole create
run is unchanged by replacing a not-found probe error with no error), and
propagates any other probe error as create's result with no push
submitted; while `checkRepositoryFileExists` — the check used by import —
propagates every error of the item fetch, not-found included. -/
theorem existence_check_error_policy (d : ResourceData) (env : CreateEnv) (e : GoError) :
    (e.notFound = true →
      resourceGitRepositoryFileCreate d { env with getItemProbe := ⟨none, some e⟩ }
        = resourceGitRepositoryFileCreate d { env with getItemProbe := ⟨none, none⟩ }) ∧
    (∀ it, e.notFound = false → env.branchCheck = none →
      resourceGitRepositoryFileCreate d { env with getItemProbe := ⟨it, some e⟩ }
        = (OpResult.err d e, [])) ∧
    checkRepositoryFileExists (Except.error e) = some e := by
  refine ⟨?_, ?_, rfl⟩
  · intro hnf
    unfold resourceGitRepositoryFileCreate
    simp [responseWasNotFound, hnf]
  · intro it hnf hb
    unfold resourceGitRepositoryFileCreate
    simp [responseWasNotFound, hnf, hb]

/-- C9: `getLastCommitId` indexes the first element of a successful
`GetCommits` response without an emptiness check, so a success carrying
an empty commit list panics with an index error instead of returning an
error value. -/
theorem getLastCommitId_empty_commits_panics :
    getLastCommitId (Except.ok []) = GoOutcome.panicked "index out of range" := rfl

/-- C10: when no `comment` value is set in state, the push built for
update carries a nil comment pointer, and the update operation's
commit-message normalization dereferences it and panics before any push
is submitted. -/
theorem update_nil_comment_panics (d : ResourceData) (env : UpdateEnv) (oid : String)
    (hb : env.branchCheck = none) (hg : getLastCommitId env.getCommits = GoOutcome.ok oid)
    (hm : d.comment = "") :
    firstCommitComment (resourceGitRepositoryPushArgs d oid VersionControlChangeTypeValues.Edit
        (some { content := d.content, contentType := ItemContentTypeValues.RawText })) = none ∧
    resourceGitRepositoryFileUpdate d env
      = (OpResult.panicked d "nil pointer dereference", []) := by
  have hok : getOkComment d = none := by simp [getOkComment, hm]
  constructor
  · simp [firstCommitComment, resourceGitRepositoryPushArgs, hok]
  · unfold resourceGitRepositoryFileUpdate resourceGitRepositoryPushArgs
    simp [hb, hg, hok]

/-- Witness for C1 at concrete attempts: a branch-tip fetch failure
terminates with the wrapped error, a conflict-message push failure
continues like the remaining attempts, and an unrelated push failure
terminates with the wrapped error. -/
theorem waitForFilePush_conflict_retry_and_error_propagation_witness :
    (waitForFilePush wD "repo1" "refs/heads/master" "f.txt"
        VersionControlChangeTypeValues.Add (some wNewContent) [wAttGetErr]
      = (WaitResult.failed (wrapRepoErr "repo1" wBoomErr), [])) ∧
    ((waitForFilePush wD "repo1" "refs/heads/master" "f.txt"
        VersionControlChangeTypeValues.Add (some wNewContent) [wAttConflict]).1
      = (waitForFilePush wD "repo1" "refs/heads/master" "f.txt"
        VersionControlChangeTypeValues.Add (some wNewContent) ([] : List RemoteAttempt)).1) ∧
    ((waitForFilePush wD "repo1" "refs/heads/master" "f.txt"
        VersionControlChangeTypeValues.Add (some wNewContent) [wAttBoom]).1
      = WaitResult.failed (wrapRepoErr "repo1" wBoomErr)) :=
  ⟨(waitForFilePush_conflict_retry_and_error_propagation wD "repo1" "refs/heads/master"
      "f.txt" VersionControlChangeTypeValues.Add (some wNewContent) wAttGetErr []).1
      wBoomErr rfl
   , (waitForFilePush_conflict_retry_and_error_propagation wD "repo1" "refs/heads/master"
      "f.txt" VersionControlChangeTypeValues.Add (some wNewContent) wAttConflict []).2.1
      "c0" wConflictErr rfl rfl (by decide)
   , (waitForFilePush_conflict_retry_and_error_propagation wD "repo1" "refs/heads/master"
      "f.txt" VersionControlChangeTypeValues.Add (some wNewContent) wAttBoom []).2.2
      "c0" wBoomErr rfl rfl (by decide)⟩

/-- Witness for C2 at concrete environments: the refusal outcome with no
push, and the Edit and Add change kinds of concretely submitted pushes. -/
theorem create_existing_file_policy_witness :
    (resourceGitRepositoryFileCreate wD wCreateEnvExisting
       = (OpResult.err wD { msg := refusalErrMsg, notFound := false }, [])) ∧
    wChangeEdit.changeType = VersionControlChangeTypeValues.Edit ∧
    wChangeAdd.changeType = VersionControlChangeTypeValues.Add :=
  ⟨(create_existing_file_policy wD wCreateEnvExisting wItem).1 rfl rfl rfl
   , (create_existing_file_policy wDOverwrite wCreateEnvExisting wItem).2.1 rfl rfl rfl
      wPushEdit (by decide) wCommitEdit (by decide) wChangeEdit (by decide)
   , (create_existing_file_policy wD wCreateEnvFresh wItem).2.2 wNotFoundErr rfl rfl rfl
      wPushAdd (by decide) wCommitAdd (by decide) wChangeAdd (by decide)⟩

/-- Witness for the amended C3 at a concrete conflicted update: exactly
one push, Edit kind with the declared content, the conflict error
returned. -/
theorem update_single_direct_push_witness :
    ((resourceGitRepositoryFileUpdate wDMsg wUpdateEnvConflict).2.length = 1) ∧
    (wChangeEdit.changeType = VersionControlChangeTypeValues.Edit ∧
     wChangeEdit.newContent
       = some { content := wDMsg.content, contentType := ItemContentTypeValues.RawText }) ∧
    ((resourceGitRepositoryFileUpdate wDMsg wUpdateEnvConflict).1
       = OpResult.err wDMsg wConflictErr) :=
  ⟨(update_single_direct_push wDMsg wUpdateEnvConflict "c0" "my message"
      rfl rfl rfl).1.1
   , (update_single_direct_push wDMsg wUpdateEnvConflict "c0" "my message"
      rfl rfl rfl).1.2 wPushUpd (by decide) wCommitUpd (by decide) wChangeEdit (by decide)
   , (update_single_direct_push wDMsg wUpdateEnvConflict "c0" "my message"
      rfl rfl rfl).2 wConflictErr rfl⟩

/-- Witness for the amended C4 at a concretely submitted push: its
comment is the default resolved from the unset declared message. -/
theorem reconciler_commit_message_resolution_witness :
    firstCommitComment wPushEdit
      = some ((getOkComment wD).getD (VersionControlChangeTypeValues.Edit ++ " " ++ "f.txt")) :=
  reconciler_commit_message_resolution wD "repo1" "refs/heads/master" "f.txt"
    VersionControlChangeTypeValues.Edit (some wNewContent) [wAttOk] wPushEdit (by decide)

/-- Witness for C5 at the concrete ids of the claim: a two-colon id is
rejected, a branch-qualified id seeds that branch, and "a/b/c" is
accepted with path "b/c". -/
theorem importer_id_parsing_witness :
    (resourceGitRepositoryFileImporter "a:b:c" wD { fileCheck := Except.ok wItem }
       = Except.error { msg := importerInvalidIdMsg, notFound := false }) ∧
    (resourceGitRepositoryFileImporter "repoId/path.txt:refs/heads/feature" wD
        { fileCheck := Except.ok wItem }
       = Except.ok { wD with
                     id := "repoId/path.txt"
                     branch := "refs/heads/feature"
                     overwrite_on_create := false }) ∧
    (resourceGitRepositoryFileImporter "a/b/c" wD { fileCheck := Except.ok wItem }
       = Except.ok { wD with
                     id := "a/b/c"
                     branch := "refs/heads/master"
                     overwrite_on_create := false }) :=
  ⟨(importer_id_parsing "a:b:c" wD { fileCheck := Except.ok wItem }).1 (by decide)
   , ((importer_id_parsing "repoId/path.txt:refs/heads/feature" wD
        { fileCheck := Except.ok wItem }).2.1 (by decide) rfl).trans (by decide)
   , ((importer_id_parsing "a/b/c" wD
        { fileCheck := Except.ok wItem }).2.1 (by decide) rfl).trans (by decide)⟩

/-- Witness for C6: the concrete polling constants, and a concrete run
where the first attempt reaches `Synched` and the loop stops at once. -/
theorem polling_policy_and_timeouts_witness :
    (waitForFilePushPolicy.timeoutSeconds = 600 ∧
     waitForFilePushPolicy.minTimeoutSeconds = 2 ∧
     waitForFilePushPolicy.delaySeconds = 0 ∧
     waitForFilePushPolicy.continuousTargetOccurence = 1 ∧
     resourceGitRepositoryFileTimeouts.readSeconds = 5) ∧
    waitForFilePush wD "repo1" "refs/heads/master" "f.txt"
        VersionControlChangeTypeValues.Add (some wNewContent) [wAttOk]
      = (WaitResult.synched,
         (refreshStep wD "f.txt" VersionControlChangeTypeValues.Add
            (some wNewContent) wAttOk).submitted) :=
  ⟨(polling_policy_and_timeouts wD "repo1" "refs/heads/master" "f.txt"
      VersionControlChangeTypeValues.Add (some wNewContent) wAttOk []).1
   , (polling_policy_and_timeouts wD "repo1" "refs/heads/master" "f.txt"
      VersionControlChangeTypeValues.Add (some wNewContent) wAttOk []).2
      rfl rfl (by decide)⟩

/-- Witness for C7 at a concrete read whose item fetch reports not-found:
the identity is cleared and the error returned. -/
theorem read_not_found_clears_identity_witness :
    resourceGitRepositoryFileRead wD wReadEnvNotFound
      = OpResult.err { wD with id := "" } wNotFoundErr :=
  read_not_found_clears_identity wD wReadEnvNotFound wNotFoundErr rfl rfl rfl

/-- Witness for the amended C8 at concrete create environments: a
not-found probe error is equivalent to no error, an unrelated probe
error is returned by create with no push submitted, and the import-side
check returns the not-found error. -/
theorem existence_check_error_policy_witness :
    (resourceGitRepositoryFileCreate wD
        { wCreateEnvFresh with getItemProbe := ⟨none, some wNotFoundErr⟩ }
      = resourceGitRepositoryFileCreate wD
        { wCreateEnvFresh with getItemProbe := ⟨none, none⟩ }) ∧
    (resourceGitRepositoryFileCreate wD
        { wCreateEnvFresh with getItemProbe := ⟨none, some wBoomErr⟩ }
      = (OpResult.err wD wBoomErr, [])) ∧
    checkRepositoryFileExists (Except.error wNotFoundErr) = some wNotFoundErr :=
  ⟨(existence_check_error_policy wD wCreateEnvFresh wNotFoundErr).1 rfl
   , (existence_check_error_policy wD wCreateEnvFresh wBoomErr).2.1 none rfl rfl
   , (existence_check_error_policy wD wCreateEnvFresh wNotFoundErr).2.2⟩

/-- Witness for C10 at a concrete update with no comment set in state:
the built push's comment is nil and the operation panics with no push
submitted. -/
theorem update_nil_comment_panics_witness :
    (firstCommitComment (resourceGitRepositoryPushArgs wD "c0"
        VersionControlChangeTypeValues.Edit
        (some { content := wD.content, contentType := ItemContentTypeValues.RawText }))
      = none) ∧
    (resourceGitRepositoryFileUpdate wD wUpdateEnvOk
      = (OpResult.panicked wD "nil pointer dereference", [])) :=
  ⟨(update_nil_comment_panics wD wUpdateEnvOk "c0" rfl rfl rfl).1
   , (update_nil_comment_panics wD wUpdateEnvOk "c0" rfl rfl rfl).2⟩
